import Mathlib

/-!
Verification development for the Minipack monitoring backend.

The definitions below are a shallow embedding of the order-lifecycle and
machine-monitoring logic of the repository:
  * `Commessa`, `DB` and the operations of `CommesseService`
    (src/backend/commesse_service.py) together with the row updates of
    `DatabaseRepository` (src/backend/database.py);
  * the machine-state detection `_determina_stato_macchina`;
  * the alarm tracker of `DatabaseRepository.process_machine_state`;
  * the failure backoff of `MonitoringService._monitoring_loop`
    (src/backend/monitoring_service.py).

SQLite rows are modelled as lists of records; `UPDATE ... WHERE id = ?`
becomes a map over the list touching the rows with the given id;
`CURRENT_TIMESTAMP` is an explicit `now : Nat` argument.  Python integers
are `Int`; result messages (plain strings in the source) are dropped and
only the success booleans are kept.
-/

/-- Lifecycle states of a commessa, the string values used in the source
('in_attesa', 'ricetta_caricata', 'in_lavorazione', 'completata',
'annullata', 'errore'). -/
inductive Stato where
  | in_attesa
  | ricetta_caricata
  | in_lavorazione
  | completata
  | annullata
  | errore
deriving DecidableEq, Repr

/-- Row of the `commesse` table (dataclass `Commessa` in database.py),
restricted to the fields the verified logic reads or writes. -/
structure Commessa where
  id : Nat
  cliente_id : Nat
  ricetta_id : Nat
  quantita_richiesta : Int
  quantita_prodotta : Int
  stato : Stato
  data_inizio_produzione : Option Nat
  data_fine_produzione : Option Nat
deriving DecidableEq, Repr

/-- The relational state the commessa operations touch: the `commesse`
table plus the sets of existing `clienti` and `ricette` ids. -/
structure DB where
  commesse : List Commessa
  clienti : List Nat
  ricette : List Nat
deriving DecidableEq, Repr

/-- `DatabaseRepository.get_commessa`: `SELECT * FROM commesse WHERE id = ?`. -/
def get_commessa (db : DB) (id : Nat) : Option Commessa :=
  db.commesse.find? (fun c => c.id = id)

/-- A commessa counts as active when its stato is `ricetta_caricata` or
`in_lavorazione` (the states selected by `get_commessa_attiva`). -/
def statoAttivo : Stato → Bool
  | .ricetta_caricata => true
  | .in_lavorazione => true
  | _ => false

/-- `DatabaseRepository.get_commessa_attiva`: one row with stato in
('in_lavorazione', 'ricetta_caricata'), if any. -/
def get_commessa_attiva (db : DB) : Option Commessa :=
  db.commesse.find? (fun c => statoAttivo c.stato)

/-- Map a row-update over the `commesse` table. -/
def mapCommesse (db : DB) (f : Commessa → Commessa) : DB :=
  { db with commesse := db.commesse.map f }

/-- The row mutation performed by `DatabaseRepository.update_stato_commessa`:
set the new stato, and set `data_inizio_produzione` on 'in_lavorazione',
`data_fine_produzione` on 'completata'/'annullata' (both CURRENT_TIMESTAMP). -/
def imposta_stato_record (nuovo : Stato) (now : Nat) (c : Commessa) : Commessa :=
  { c with
    stato := nuovo
    data_inizio_produzione :=
      if nuovo = .in_lavorazione then some now else c.data_inizio_produzione
    data_fine_produzione :=
      if nuovo = .completata ∨ nuovo = .annullata then some now
      else c.data_fine_produzione }

/-- `DatabaseRepository.update_stato_commessa` (the UPDATE ... WHERE id = ?
part; the event-log insertion is not modelled). -/
def update_stato_commessa (db : DB) (id : Nat) (nuovo : Stato) (now : Nat) : DB :=
  mapCommesse db (fun c => if c.id = id then imposta_stato_record nuovo now c else c)

/-- `DatabaseRepository.update_quantita_prodotta`. -/
def update_quantita_prodotta (db : DB) (id : Nat) (quantita : Int) : DB :=
  mapCommesse db (fun c => if c.id = id then { c with quantita_prodotta := quantita } else c)

/-- `CommesseService.valida_commessa`: cliente exists, ricetta exists,
quantity strictly positive and at most 1000000. -/
def valida_commessa (db : DB) (cliente_id ricetta_id : Nat) (quantita_richiesta : Int) : Bool :=
  if cliente_id ∉ db.clienti then false
  else if ricetta_id ∉ db.ricette then false
  else if quantita_richiesta ≤ 0 then false
  else if quantita_richiesta > 1000000 then false
  else true

/-- Fresh row id for an INSERT (SQLite `lastrowid`): one more than the
largest existing id. -/
def freshId (db : DB) : Nat :=
  (db.commesse.map (fun c => c.id)).foldr max 0 + 1

/-- `CommesseService.crea_commessa`: validate, then insert a new commessa
in stato 'in_attesa' with `quantita_prodotta = 0`.  Returns
(success, commessa_id, new db). -/
def crea_commessa (db : DB) (cliente_id ricetta_id : Nat) (quantita_richiesta : Int) :
    Bool × Nat × DB :=
  if valida_commessa db cliente_id ricetta_id quantita_richiesta then
    let id := freshId db
    (true, id,
      { db with commesse := db.commesse ++
          [⟨id, cliente_id, ricetta_id, quantita_richiesta, 0, .in_attesa, none, none⟩] })
  else (false, 0, db)

/-- The machine status flags read over OPC UA
(`MinipackTorreOPCUA.get_status_flags`), restricted to the five flags
`_determina_stato_macchina` inspects. -/
structure StatusFlags where
  emergenza : Bool
  start_automatico : Bool
  start_manuale : Bool
  stop_automatico : Bool
  stop_manuale : Bool
deriving DecidableEq, Repr

/-- The canonical machine states returned by `_determina_stato_macchina`. -/
inductive StatoMacchina where
  | EMERGENZA
  | START_AUTOMATICO
  | START_MANUALE
  | STOP_AUTOMATICO
  | STOP_MANUALE
  | SCONOSCIUTO
deriving DecidableEq, Repr

/-- `DatabaseRepository._determina_stato_macchina`: fixed-priority decoding
of the status flags. -/
def determina_stato_macchina (f : StatusFlags) : StatoMacchina :=
  if f.emergenza then .EMERGENZA
  else if f.start_automatico then .START_AUTOMATICO
  else if f.start_manuale then .START_MANUALE
  else if f.stop_automatico then .STOP_AUTOMATICO
  else if f.stop_manuale then .STOP_MANUALE
  else .SCONOSCIUTO

/-- `CommesseService.verifica_macchina_pronta` on a successful flags read:
not in emergenza, and in stop automatico. -/
def verifica_macchina_pronta (f : StatusFlags) : Bool :=
  if f.emergenza then false
  else if !f.stop_automatico then false
  else true

/-- The device register state the service writes: the batch countdown
counter (`set_contatore_lotto`). -/
structure Device where
  contatore_lotto : Int
deriving DecidableEq, Repr

/-- `CommesseService.carica_ricetta_commessa`.  Arguments `flags` is the
machine status read by `verifica_macchina_pronta`, and `loadOk` is the
outcome of the device load protocol `MinipackTorreOPCUA.carica_ricetta`
(false covers the explicit KO flag, the timeout, and the exception path,
all of which move the commessa to 'errore').  On success the commessa
becomes 'ricetta_caricata' and the device countdown counter is set to
`quantita_richiesta`.  Returns (success, db, device).
`altra_commessa_attiva` is the check `commessa_attiva and
commessa_attiva.id != commessa_id` of the source. -/
def altra_commessa_attiva (db : DB) (commessa_id : Nat) : Bool :=
  match get_commessa_attiva db with
  | some ca => ca.id != commessa_id
  | none => false

def carica_ricetta_commessa (db : DB) (dev : Device) (flags : StatusFlags)
    (loadOk : Bool) (now : Nat) (commessa_id : Nat) : Bool × DB × Device :=
  match get_commessa db commessa_id with
  | none => (false, db, dev)
  | some c =>
    if c.stato ≠ .in_attesa then (false, db, dev)
    else if altra_commessa_attiva db commessa_id then (false, db, dev)
    else if c.ricetta_id ∉ db.ricette then (false, db, dev)
    else if !verifica_macchina_pronta flags then (false, db, dev)
    else if !loadOk then
      (false, update_stato_commessa db commessa_id .errore now, dev)
    else
      (true, update_stato_commessa db commessa_id .ricetta_caricata now,
        { dev with contatore_lotto := c.quantita_richiesta })

/-- `CommesseService.avvia_commessa`: allowed from 'ricetta_caricata' or
'in_attesa', moves the commessa to 'in_lavorazione'. -/
def avvia_commessa (db : DB) (now : Nat) (commessa_id : Nat) : Bool × DB :=
  match get_commessa db commessa_id with
  | none => (false, db)
  | some c =>
    if c.stato = .ricetta_caricata ∨ c.stato = .in_attesa then
      (true, update_stato_commessa db commessa_id .in_lavorazione now)
    else (false, db)

/-- `CommesseService.completa_commessa`: a commessa already 'completata' is
left untouched; any other existing commessa is moved to 'completata'. -/
def completa_commessa (db : DB) (now : Nat) (commessa_id : Nat) : Bool × DB :=
  match get_commessa db commessa_id with
  | none => (false, db)
  | some c =>
    if c.stato = .completata then (true, db)
    else (true, update_stato_commessa db commessa_id .completata now)

/-- `CommesseService.annulla_commessa`: rejected on 'completata' or
'annullata', otherwise moves the commessa to 'annullata'. -/
def annulla_commessa (db : DB) (now : Nat) (commessa_id : Nat) : Bool × DB :=
  match get_commessa db commessa_id with
  | none => (false, db)
  | some c =>
    if c.stato = .completata ∨ c.stato = .annullata then (false, db)
    else (true, update_stato_commessa db commessa_id .annullata now)

/-- `CommesseService.aggiorna_progresso_commessa`: store
`quantita_richiesta - contatore` floored at 0 as the produced quantity,
and complete the commessa when it reaches `quantita_richiesta`.
Returns (completed, db). -/
def aggiorna_progresso_commessa (db : DB) (now : Nat) (commessa_id : Nat)
    (contatore_lotto_attuale : Int) : Bool × DB :=
  match get_commessa db commessa_id with
  | none => (false, db)
  | some c =>
    let quantita_prodotta :=
      if c.quantita_richiesta - contatore_lotto_attuale < 0 then 0
      else c.quantita_richiesta - contatore_lotto_attuale
    let db1 := update_quantita_prodotta db commessa_id quantita_prodotta
    if quantita_prodotta ≥ c.quantita_richiesta then
      (true, (completa_commessa db1 now commessa_id).2)
    else (false, db1)

/-- Row of the `allarmi_storico` table (dataclass `Allarme`), without the
`lavorazione_id` column, which the tracker logic never reads. -/
structure Allarme where
  codice_allarme : Int
  timestamp_inizio : Nat
  timestamp_fine : Option Nat
  durata_secondi : Option Int
deriving DecidableEq, Repr

/-- Alarm-tracker state of `DatabaseRepository`: `allarmi_attivi` is the
in-memory map `{codice_allarme: id_record}` joined with the open rows it
points at, represented as an association list from alarm code to the open
timestamp; `storico` is the list of closed `allarmi_storico` rows. -/
structure TrackerState where
  allarmi_attivi : List (Int × Nat)
  storico : List Allarme
deriving DecidableEq, Repr

/-- Association-list lookup of an alarm code (the dict lookup
`codice_allarme in self._allarmi_attivi`). -/
def lookupA (codice : Int) : List (Int × Nat) → Option Nat
  | [] => none
  | p :: ps => if p.1 = codice then some p.2 else lookupA codice ps

/-- `DatabaseRepository.start_allarme`: insert an open row with
`timestamp_inizio = now` and record the code as active. -/
def start_allarme (tr : TrackerState) (codice : Int) (now : Nat) : TrackerState :=
  { tr with allarmi_attivi := (codice, now) :: tr.allarmi_attivi }

/-- The closed row written by `end_allarme`: `timestamp_fine = now` and
`durata_secondi = now - timestamp_inizio`. -/
def chiudi_allarme (codice : Int) (inizio now : Nat) : Allarme :=
  ⟨codice, inizio, some now, some ((now : Int) - (inizio : Int))⟩

/-- `DatabaseRepository.end_allarme`: a no-op when the code is not active;
otherwise close the open row (computing the duration) and drop the code
from the active map. -/
def end_allarme (tr : TrackerState) (codice : Int) (now : Nat) : TrackerState :=
  match lookupA codice tr.allarmi_attivi with
  | none => tr
  | some inizio =>
    { allarmi_attivi := tr.allarmi_attivi.filter (fun p => p.1 ≠ codice)
      storico := tr.storico ++ [chiudi_allarme codice inizio now] }

/-- The snapshot's active alarm-code set: the nonzero codes among the nine
`alarm_i` slots of `machine_data` in `process_machine_state`. -/
def allarmi_attuali (slots : List Int) : List Int :=
  slots.filter (fun c => c ≠ 0)

/-- First phase of the alarm section of
`DatabaseRepository.process_machine_state`: start every observed code that
is not yet active. -/
def apri_nuovi (tr : TrackerState) (s : List Int) (now : Nat) : TrackerState :=
  s.foldl
    (fun t c => if lookupA c t.allarmi_attivi = none then start_allarme t c now else t)
    tr

/-- Second phase: close every active code that is no longer observed
(`allarmi_risolti = set(self._allarmi_attivi.keys()) - allarmi_attuali`). -/
def chiudi_risolti (tr : TrackerState) (s : List Int) (now : Nat) : TrackerState :=
  ((tr.allarmi_attivi.map Prod.fst).filter (fun c => c ∉ s)).foldl
    (fun t c => end_allarme t c now) tr

/-- The alarm open/close step of `DatabaseRepository.process_machine_state`
applied to one machine snapshot. -/
def process_machine_state (tr : TrackerState) (slots : List Int) (now : Nat) :
    TrackerState :=
  chiudi_risolti (apri_nuovi tr (allarmi_attuali slots) now) (allarmi_attuali slots) now

/-- `max_consecutive_errors` in `MonitoringService._monitoring_loop`. -/
def max_consecutive_errors : Nat := 5

/-- One iteration of `MonitoringService._monitoring_loop`, seen as a
function of the tick outcome and the consecutive-error count: returns the
new count and the wait before the next poll.  A successful tick resets the
count and waits `polling_interval`; a failed tick increments it and waits
`3 * polling_interval` once the count has reached the threshold. -/
def monitoring_step (polling_interval : Nat) (tick_ok : Bool)
    (consecutive_errors : Nat) : Nat × Nat :=
  if tick_ok then (0, polling_interval)
  else
    let n := consecutive_errors + 1
    if n ≥ max_consecutive_errors then (n, 3 * polling_interval)
    else (n, polling_interval)

-- ===========================================================================
-- Helper lemmas on list-modelled tables
-- ===========================================================================

lemma find?_map_of_pred {α : Type} (f : α → α) (p : α → Bool) (l : List α)
    (hf : ∀ c, p (f c) = p c) : (l.map f).find? p = (l.find? p).map f := by
  induction l with
  | nil => rfl
  | cons a t ih =>
    by_cases h : p a = true
    · rw [List.map_cons, List.find?_cons_of_pos _ (by rw [hf]; exact h),
        List.find?_cons_of_pos _ h]
      rfl
    · rw [List.map_cons, List.find?_cons_of_neg _ (by rw [hf]; exact h),
        List.find?_cons_of_neg _ h, ih]

lemma get_commessa_mapCommesse (db : DB) (i j : Nat) (g : Commessa → Commessa)
    (hg : ∀ c, (g c).id = c.id) :
    get_commessa (mapCommesse db (fun c => if c.id = i then g c else c)) j
      = (get_commessa db j).map (fun c => if c.id = i then g c else c) := by
  unfold get_commessa mapCommesse
  apply find?_map_of_pred
  intro c
  by_cases h : c.id = i
  · simp [h, hg]
  · simp [h]

lemma get_commessa_id {db : DB} {i : Nat} {c : Commessa}
    (h : get_commessa db i = some c) : c.id = i := by
  have := List.find?_some h
  exact of_decide_eq_true this

lemma imposta_stato_record_id (nuovo : Stato) (now : Nat) (c : Commessa) :
    (imposta_stato_record nuovo now c).id = c.id := rfl

lemma get_update_stato (db : DB) (i : Nat) (s : Stato) (now : Nat) {c : Commessa}
    (hc : get_commessa db i = some c) :
    get_commessa (update_stato_commessa db i s now) i
      = some (imposta_stato_record s now c) := by
  unfold update_stato_commessa
  rw [get_commessa_mapCommesse db i i _ (imposta_stato_record_id s now), hc]
  simp [get_commessa_id hc]

lemma get_update_quantita (db : DB) (i : Nat) (q : Int) {c : Commessa}
    (hc : get_commessa db i = some c) :
    get_commessa (update_quantita_prodotta db i q) i
      = some { c with quantita_prodotta := q } := by
  unfold update_quantita_prodotta
  rw [get_commessa_mapCommesse db i i
    (fun c => { c with quantita_prodotta := q }) (fun _ => rfl), hc]
  simp [get_commessa_id hc]

lemma clamp0 (a : Int) : (if a < 0 then 0 else a) = max a 0 := by
  by_cases h : a < 0
  · rw [if_pos h, max_eq_right h.le]
  · rw [if_neg h, max_eq_left (le_of_not_lt h)]

/-- Effect of `aggiorna_progresso_commessa` on the touched commessa, for a
commessa that is not already 'completata': the produced quantity becomes
`max (quantita_richiesta - contatore) 0` unconditionally, and when that
value reaches `quantita_richiesta` the commessa is completed with
`data_fine_produzione = now`. -/
lemma aggiorna_progresso_spec (db : DB) (now commessa_id : Nat) (contatore : Int)
    (c : Commessa) (hc : get_commessa db commessa_id = some c)
    (hnc : c.stato ≠ .completata) :
    (get_commessa (aggiorna_progresso_commessa db now commessa_id contatore).2
        commessa_id).map (fun x => x.quantita_prodotta)
      = some (max (c.quantita_richiesta - contatore) 0)
    ∧ (get_commessa (aggiorna_progresso_commessa db now commessa_id contatore).2
        commessa_id).map (fun x => x.stato)
      = some (if max (c.quantita_richiesta - contatore) 0 ≥ c.quantita_richiesta
          then .completata else c.stato)
    ∧ (get_commessa (aggiorna_progresso_commessa db now commessa_id contatore).2
        commessa_id).map (fun x => x.data_fine_produzione)
      = some (if max (c.quantita_richiesta - contatore) 0 ≥ c.quantita_richiesta
          then some now else c.data_fine_produzione) := by
  have hc1 : get_commessa
      (update_quantita_prodotta db commessa_id (max (c.quantita_richiesta - contatore) 0))
      commessa_id
      = some { c with quantita_prodotta := max (c.quantita_richiesta - contatore) 0 } :=
    get_update_quantita db commessa_id _ hc
  unfold aggiorna_progresso_commessa
  rw [hc]
  simp only [clamp0]
  by_cases hge : max (c.quantita_richiesta - contatore) 0 ≥ c.quantita_richiesta
  · simp only [hge, if_true, ge_iff_le, le_refl, if_pos]
    unfold completa_commessa
    rw [hc1]
    simp only []
    have hst : ¬ ({ c with
        quantita_prodotta := max (c.quantita_richiesta - contatore) 0 }.stato
          = Stato.completata) := hnc
    rw [if_neg hst]
    rw [get_update_stato _ commessa_id _ now hc1]
    simp [imposta_stato_record, hge]
  · simp only [hge, if_false]
    rw [hc1]
    simp [hge]

/-- `aggiorna_progresso_commessa` never moves a commessa that is already
'completata' out of that stato (the nested `completa_commessa` is a no-op
on it). -/
lemma aggiorna_progresso_stato_completata (db : DB) (now commessa_id : Nat)
    (contatore : Int) (c : Commessa) (hc : get_commessa db commessa_id = some c)
    (hcompl : c.stato = .completata) :
    (get_commessa (aggiorna_progresso_commessa db now commessa_id contatore).2
        commessa_id).map (fun x => x.stato) = some .completata := by
  have hc1 : get_commessa
      (update_quantita_prodotta db commessa_id (max (c.quantita_richiesta - contatore) 0))
      commessa_id
      = some { c with quantita_prodotta := max (c.quantita_richiesta - contatore) 0 } :=
    get_update_quantita db commessa_id _ hc
  unfold aggiorna_progresso_commessa
  rw [hc]
  simp only [clamp0]
  by_cases hge : max (c.quantita_richiesta - contatore) 0 ≥ c.quantita_richiesta
  · simp only [hge, if_true, ge_iff_le, le_refl, if_pos]
    unfold completa_commessa
    rw [hc1]
    simp only []
    have hst : ({ c with
        quantita_prodotta := max (c.quantita_richiesta - contatore) 0 }.stato
          = Stato.completata) := hcompl
    rw [if_pos hst, hc1]
    simp [hcompl]
  · simp only [hge, if_false]
    rw [hc1]
    simp [hcompl]

-- ===========================================================================
-- C4: machine-state detection
-- ===========================================================================

/-- C4: for every combination of the boolean status flags,
`determina_stato_macchina` returns exactly the canonical state given by
the fixed priority emergenza > start_automatico > start_manuale >
stop_automatico > stop_manuale, and SCONOSCIUTO when no flag is set. -/
theorem determina_stato_macchina_priority (e sa sm ta tm : Bool) :
    (determina_stato_macchina ⟨e, sa, sm, ta, tm⟩ = .EMERGENZA ↔ e = true)
    ∧ (determina_stato_macchina ⟨e, sa, sm, ta, tm⟩ = .START_AUTOMATICO ↔
        (e = false ∧ sa = true))
    ∧ (determina_stato_macchina ⟨e, sa, sm, ta, tm⟩ = .START_MANUALE ↔
        (e = false ∧ sa = false ∧ sm = true))
    ∧ (determina_stato_macchina ⟨e, sa, sm, ta, tm⟩ = .STOP_AUTOMATICO ↔
        (e = false ∧ sa = false ∧ sm = false ∧ ta = true))
    ∧ (determina_stato_macchina ⟨e, sa, sm, ta, tm⟩ = .STOP_MANUALE ↔
        (e = false ∧ sa = false ∧ sm = false ∧ ta = false ∧ tm = true))
    ∧ (determina_stato_macchina ⟨e, sa, sm, ta, tm⟩ = .SCONOSCIUTO ↔
        (e = false ∧ sa = false ∧ sm = false ∧ ta = false ∧ tm = false)) := by
  cases e <;> cases sa <;> cases sm <;> cases ta <;> cases tm <;> decide

-- ===========================================================================
-- C9: monitoring-loop failure backoff
-- ===========================================================================

/-- C9: in the monitoring loop, a failed tick increments the
consecutive-error count and, once that count has reached the threshold of
5, the wait before the next poll becomes 3 times the polling interval;
below the threshold the wait is the configured interval, and a successful
tick resets the count to 0 with the configured interval as the wait. -/
theorem monitoring_step_backoff (polling_interval n : Nat) :
    monitoring_step polling_interval true n = (0, polling_interval)
    ∧ (monitoring_step polling_interval false n).1 = n + 1
    ∧ (n + 1 ≥ max_consecutive_errors →
        (monitoring_step polling_interval false n).2 = 3 * polling_interval)
    ∧ (n + 1 < max_consecutive_errors →
        (monitoring_step polling_interval false n).2 = polling_interval) := by
  unfold monitoring_step
  refine ⟨rfl, ?_, ?_, ?_⟩
  · by_cases h : n + 1 ≥ max_consecutive_errors <;> simp [h]
  · intro h; simp [h]
  · intro h; simp [Nat.not_le.mpr h]

/-- Witness for C9: with interval 7, the fifth consecutive failure (count
going from 4 to 5) waits 21 = 3 * 7, and a success resets to (0, 7). -/
theorem monitoring_step_backoff_witness :
    (monitoring_step 7 false 4).2 = 3 * 7 ∧ monitoring_step 7 true 4 = (0, 7) :=
  ⟨(monitoring_step_backoff 7 4).2.2.1 (by decide),
    (monitoring_step_backoff 7 4).1⟩

-- ===========================================================================
-- C10: creation-side validation, including the implicit upper bound
-- ===========================================================================

/-- C10: `crea_commessa` rejects the request, creating no commessa and
leaving the database unchanged, when the requested quantity exceeds
1000000, and likewise when it is ≤ 0 or when the referenced cliente or
ricetta does not exist. -/
theorem crea_commessa_rejects (db : DB) (cliente_id ricetta_id : Nat) (q : Int) :
    (q > 1000000 → crea_commessa db cliente_id ricetta_id q = (false, 0, db))
    ∧ (q ≤ 0 → crea_commessa db cliente_id ricetta_id q = (false, 0, db))
    ∧ (cliente_id ∉ db.clienti →
        crea_commessa db cliente_id ricetta_id q = (false, 0, db))
    ∧ (ricetta_id ∉ db.ricette →
        crea_commessa db cliente_id ricetta_id q = (false, 0, db)) := by
  unfold crea_commessa valida_commessa
  refine ⟨?_, ?_, ?_, ?_⟩ <;> intro h
  · by_cases h1 : cliente_id ∉ db.clienti <;> by_cases h2 : ricetta_id ∉ db.ricette <;>
      by_cases h3 : q ≤ 0 <;> simp [h1, h2, h3, h]
  · by_cases h1 : cliente_id ∉ db.clienti <;> by_cases h2 : ricetta_id ∉ db.ricette <;>
      simp [h1, h2, h]
  · simp [h]
  · by_cases h1 : cliente_id ∉ db.clienti <;> simp [h1, h]

/-- Witness for C10: with cliente 1 and ricetta 1 existing, a request for
1000001 pieces is rejected and the database is unchanged. -/
theorem crea_commessa_rejects_witness :
    crea_commessa ⟨[], [1], [1]⟩ 1 1 1000001 = (false, 0, ⟨[], [1], [1]⟩) :=
  (crea_commessa_rejects ⟨[], [1], [1]⟩ 1 1 1000001).1 (by decide)

-- ===========================================================================
-- C2 and C3: progress updates
-- ===========================================================================

/-- A database with a single commessa (id 1, requested 10, already
produced 5, in lavorazione). -/
def db_progresso : DB :=
  ⟨[⟨1, 1, 1, 10, 5, .in_lavorazione, some 0, none⟩], [1], [1]⟩

/-- Counterexample to C2 as stated: commessa 1 has `quantita_prodotta = 5`;
a countdown reading of 8 implies produced 10 - 8 = 2 < 5, yet the update
is applied (the stored value becomes 2), not rejected leaving 5. -/
theorem aggiorna_progresso_decrementa :
    (get_commessa (aggiorna_progresso_commessa db_progresso 3 1 8).2 1).map
        (fun x => x.quantita_prodotta) = some 2
    ∧ ¬ ((get_commessa (aggiorna_progresso_commessa db_progresso 3 1 8).2 1).map
        (fun x => x.quantita_prodotta) = some 5) := by decide

/-- C2 (amended): for a commessa in 'in_lavorazione',
`aggiorna_progresso_commessa` stores `max (quantita_richiesta - contatore) 0`
as the produced quantity unconditionally, whatever the previously stored
value; a reading implying a lower produced value is applied, not
rejected. -/
theorem aggiorna_progresso_applica_sempre (db : DB) (now commessa_id : Nat)
    (contatore : Int) (c : Commessa)
    (hc : get_commessa db commessa_id = some c)
    (hs : c.stato = .in_lavorazione) :
    (get_commessa (aggiorna_progresso_commessa db now commessa_id contatore).2
        commessa_id).map (fun x => x.quantita_prodotta)
      = some (max (c.quantita_richiesta - contatore) 0) :=
  (aggiorna_progresso_spec db now commessa_id contatore c hc
    (by rw [hs]; intro h; cases h)).1

/-- Witness for the amended C2: on `db_progresso` (produced 5) with
reading 8 the stored value becomes max (10 - 8) 0 = 2. -/
theorem aggiorna_progresso_applica_sempre_witness :
    (get_commessa (aggiorna_progresso_commessa db_progresso 3 1 8).2 1).map
        (fun x => x.quantita_prodotta) = some (max ((10 : Int) - 8) 0) :=
  aggiorna_progresso_applica_sempre db_progresso 3 1 8
    ⟨1, 1, 1, 10, 5, .in_lavorazione, some 0, none⟩ (by rfl) (by rfl)

/-- Counterexample to C3 as stated: with requested 5 and a countdown
reading of -1 the stored produced quantity is 6, which exceeds
`quantita_richiesta`: the source only floors `richiesta - contatore` at 0
and never clamps it from above. -/
theorem aggiorna_progresso_senza_clamp_superiore :
    (get_commessa
        (aggiorna_progresso_commessa ⟨[⟨1, 1, 1, 5, 0, .in_lavorazione, some 0, none⟩], [1], [1]⟩
          3 1 (-1)).2 1).map (fun x => x.quantita_prodotta) = some 6
    ∧ ¬ ((6 : Int) ≤ 5) := by decide

/-- C3 (amended): for a commessa in 'in_lavorazione' with positive
requested quantity and a NON-NEGATIVE countdown reading, the stored
produced quantity is `max (quantita_richiesta - contatore) 0` (which for
such readings equals clamp(richiesta - contatore, 0, richiesta) and never
exceeds `quantita_richiesta`), and when it equals `quantita_richiesta` the
commessa moves to 'completata' with `data_fine_produzione = now`. -/
theorem aggiorna_progresso_clamp_completa (db : DB) (now commessa_id : Nat)
    (contatore : Int) (c : Commessa)
    (hc : get_commessa db commessa_id = some c)
    (hs : c.stato = .in_lavorazione)
    (hq : 0 < c.quantita_richiesta) (hcont : 0 ≤ contatore) :
    (get_commessa (aggiorna_progresso_commessa db now commessa_id contatore).2
        commessa_id).map (fun x => x.quantita_prodotta)
      = some (max (c.quantita_richiesta - contatore) 0)
    ∧ max (c.quantita_richiesta - contatore) 0 ≤ c.quantita_richiesta
    ∧ (max (c.quantita_richiesta - contatore) 0 = c.quantita_richiesta →
        (get_commessa (aggiorna_progresso_commessa db now commessa_id contatore).2
            commessa_id).map (fun x => x.stato) = some .completata
        ∧ (get_commessa (aggiorna_progresso_commessa db now commessa_id contatore).2
            commessa_id).map (fun x => x.data_fine_produzione) = some (some now)) := by
  have hnc : c.stato ≠ .completata := by rw [hs]; intro h; cases h
  obtain ⟨h1, h2, h3⟩ := aggiorna_progresso_spec db now commessa_id contatore c hc hnc
  have hle : max (c.quantita_richiesta - contatore) 0 ≤ c.quantita_richiesta := by
    apply max_le
    · exact sub_le_self _ hcont
    · exact hq.le
  refine ⟨h1, hle, fun heq => ⟨?_, ?_⟩⟩
  · rw [h2, if_pos (ge_of_eq heq)]
  · rw [h3, if_pos (ge_of_eq heq)]

/-- Witness for the amended C3: commessa with requested 10 and produced 5,
reading 0: stored produced becomes 10 = requested, within bound, and the
commessa completes with finish timestamp 3. -/
theorem aggiorna_progresso_clamp_completa_witness :
    (get_commessa (aggiorna_progresso_commessa db_progresso 3 1 0).2 1).map
        (fun x => x.quantita_prodotta) = some (max ((10 : Int) - 0) 0)
    ∧ (get_commessa (aggiorna_progresso_commessa db_progresso 3 1 0).2 1).map
        (fun x => x.stato) = some .completata
    ∧ (get_commessa (aggiorna_progresso_commessa db_progresso 3 1 0).2 1).map
        (fun x => x.data_fine_produzione) = some (some 3) := by
  obtain ⟨h1, _, h3⟩ := aggiorna_progresso_clamp_completa db_progresso 3 1 0
    ⟨1, 1, 1, 10, 5, .in_lavorazione, some 0, none⟩ (by rfl) (by rfl)
    (by decide) (by decide)
  obtain ⟨h4, h5⟩ := h3 (by decide)
  exact ⟨h1, h4, h5⟩

-- ===========================================================================
-- C7 and C8: recipe-load guards and terminal states
-- ===========================================================================

/-- The commessa ids are pairwise distinct (SQLite primary key). -/
def nodupIds (db : DB) : Prop := (db.commesse.map (fun c => c.id)).Nodup

/-- Every active commessa (if any) is the one with the given id: the
property checked in the source via `get_commessa_attiva`. -/
def nessuna_altra_attiva (db : DB) (commessa_id : Nat) : Prop :=
  ∀ c ∈ db.commesse, statoAttivo c.stato = true → c.id = commessa_id

lemma commessa_eq_of_id {db : DB} {c c1 : Commessa} (hnd : nodupIds db)
    (hm : c ∈ db.commesse) (hm1 : c1 ∈ db.commesse) (h : c.id = c1.id) : c = c1 :=
  List.inj_on_of_nodup_map hnd hm hm1 h

lemma altra_false_of_nessuna (db : DB) (commessa_id : Nat)
    (h : nessuna_altra_attiva db commessa_id) :
    altra_commessa_attiva db commessa_id = false := by
  unfold altra_commessa_attiva
  cases hca : get_commessa_attiva db with
  | none => rfl
  | some ca =>
    have hca1 : db.commesse.find? (fun x => statoAttivo x.stato) = some ca := hca
    have h1' := List.find?_some hca1
    have h1 : statoAttivo ca.stato = true := h1'
    have h2 : ca ∈ db.commesse := List.mem_of_find?_eq_some hca1
    have := h ca h2 h1
    simp [this]

lemma altra_true_of_conflitto (db : DB) (commessa_id : Nat) (c : Commessa)
    (hnd : nodupIds db) (hc : get_commessa db commessa_id = some c)
    (hs : c.stato = .in_attesa) (h : ¬ nessuna_altra_attiva db commessa_id) :
    altra_commessa_attiva db commessa_id = true := by
  unfold nessuna_altra_attiva at h
  push_neg at h
  obtain ⟨c1, hmem, hatt, hne⟩ := h
  cases hca : get_commessa_attiva db with
  | none =>
    have hca1 : db.commesse.find? (fun x => statoAttivo x.stato) = none := hca
    rw [List.find?_eq_none] at hca1
    exact absurd hatt (by simpa using hca1 c1 hmem)
  | some ca =>
    have hca1 : db.commesse.find? (fun x => statoAttivo x.stato) = some ca := hca
    have h1' := List.find?_some hca1
    have h1 : statoAttivo ca.stato = true := h1'
    have h2 : ca ∈ db.commesse := List.mem_of_find?_eq_some hca1
    have hcid : ¬ (ca.id = commessa_id) := by
      intro heq
      have hceq : ca = c :=
        commessa_eq_of_id hnd h2 (List.mem_of_find?_eq_some hc)
          (heq.trans (get_commessa_id hc).symm)
      rw [hceq, hs] at h1
      cases h1
    unfold altra_commessa_attiva
    rw [hca]
    simpa using hcid

lemma verifica_eq_true_iff (flags : StatusFlags) :
    verifica_macchina_pronta flags = true ↔
      flags.emergenza = false ∧ flags.stop_automatico = true := by
  unfold verifica_macchina_pronta
  cases he : flags.emergenza <;> cases hsa : flags.stop_automatico <;> simp [he, hsa]

/-- C7: `carica_ricetta_commessa` is rejected with the database and device
untouched unless the commessa is 'in_attesa', no other commessa is active
and the machine is in stop automatico without emergenza; when the guard
passes (and the ricetta exists) a failing device load protocol moves the
commessa to 'errore', while a successful one moves it to
'ricetta_caricata' and sets the device countdown counter to
`quantita_richiesta`. -/
theorem carica_ricetta_guards (db : DB) (dev : Device) (flags : StatusFlags)
    (loadOk : Bool) (now commessa_id : Nat) (c : Commessa)
    (hnd : nodupIds db) (hc : get_commessa db commessa_id = some c) :
    (¬ (c.stato = .in_attesa ∧ nessuna_altra_attiva db commessa_id
          ∧ flags.emergenza = false ∧ flags.stop_automatico = true) →
        carica_ricetta_commessa db dev flags loadOk now commessa_id = (false, db, dev))
    ∧ (c.stato = .in_attesa → nessuna_altra_attiva db commessa_id →
        flags.emergenza = false → flags.stop_automatico = true →
        c.ricetta_id ∈ db.ricette →
        (loadOk = false →
            (carica_ricetta_commessa db dev flags loadOk now commessa_id).1 = false
            ∧ (get_commessa
                (carica_ricetta_commessa db dev flags loadOk now commessa_id).2.1
                commessa_id).map (fun x => x.stato) = some .errore)
        ∧ (loadOk = true →
            (carica_ricetta_commessa db dev flags loadOk now commessa_id).1 = true
            ∧ (get_commessa
                (carica_ricetta_commessa db dev flags loadOk now commessa_id).2.1
                commessa_id).map (fun x => x.stato) = some .ricetta_caricata
            ∧ (carica_ricetta_commessa db dev flags loadOk now commessa_id).2.2.contatore_lotto
                = c.quantita_richiesta)) := by
  constructor
  · intro hng
    by_cases h1 : c.stato = .in_attesa
    · by_cases h2 : nessuna_altra_attiva db commessa_id
      · have hflags : ¬ (flags.emergenza = false ∧ flags.stop_automatico = true) := by
          intro hfl
          exact hng ⟨h1, h2, hfl⟩
        have hver : verifica_macchina_pronta flags = false := by
          cases hv : verifica_macchina_pronta flags with
          | false => rfl
          | true => exact absurd ((verifica_eq_true_iff flags).mp hv) hflags
        unfold carica_ricetta_commessa
        simp only [hc]
        rw [if_neg (not_not_intro h1)]
        by_cases h3 : c.ricetta_id ∉ db.ricette
        · simp [altra_false_of_nessuna db commessa_id h2, h3]
        · simp [altra_false_of_nessuna db commessa_id h2, h3, hver]
      · unfold carica_ricetta_commessa
        simp only [hc]
        rw [if_neg (not_not_intro h1)]
        simp [altra_true_of_conflitto db commessa_id c hnd hc h1 h2]
    · unfold carica_ricetta_commessa
      simp only [hc]
      rw [if_pos h1]
  · intro h1 h2 hem hsa hric
    have hver : verifica_macchina_pronta flags = true :=
      (verifica_eq_true_iff flags).mpr ⟨hem, hsa⟩
    have hrid : ¬ (c.ricetta_id ∉ db.ricette) := not_not_intro hric
    constructor
    · intro hload
      have heq : carica_ricetta_commessa db dev flags loadOk now commessa_id
          = (false, update_stato_commessa db commessa_id .errore now, dev) := by
        unfold carica_ricetta_commessa
        simp only [hc]
        rw [if_neg (not_not_intro h1)]
        simp [altra_false_of_nessuna db commessa_id h2, hrid, hver, hload]
      rw [heq]
      refine ⟨rfl, ?_⟩
      rw [get_update_stato db commessa_id .errore now hc]
      rfl
    · intro hload
      have heq : carica_ricetta_commessa db dev flags loadOk now commessa_id
          = (true, update_stato_commessa db commessa_id .ricetta_caricata now,
              { dev with contatore_lotto := c.quantita_richiesta }) := by
        unfold carica_ricetta_commessa
        simp only [hc]
        rw [if_neg (not_not_intro h1)]
        simp [altra_false_of_nessuna db commessa_id h2, hrid, hver, hload]
      rw [heq]
      refine ⟨rfl, ?_, rfl⟩
      rw [get_update_stato db commessa_id .ricetta_caricata now hc]
      rfl

/-- A ready machine: stop automatico set, nothing else. -/
def flags_pronta : StatusFlags := ⟨false, false, false, true, false⟩

/-- A database whose only commessa (id 1, requested 10) is waiting. -/
def db_attesa : DB := ⟨[⟨1, 1, 1, 10, 0, .in_attesa, none, none⟩], [1], [1]⟩

/-- Witness for C7: on `db_attesa` with a ready machine and a successful
load, commessa 1 becomes 'ricetta_caricata' and the countdown counter is
set to 10. -/
theorem carica_ricetta_guards_witness :
    (carica_ricetta_commessa db_attesa ⟨0⟩ flags_pronta true 0 1).1 = true
    ∧ (get_commessa (carica_ricetta_commessa db_attesa ⟨0⟩ flags_pronta true 0 1).2.1
        1).map (fun x => x.stato) = some .ricetta_caricata
    ∧ (carica_ricetta_commessa db_attesa ⟨0⟩ flags_pronta true 0 1).2.2.contatore_lotto
        = 10 := by
  have h := (carica_ricetta_guards db_attesa ⟨0⟩ flags_pronta true 0 1
      ⟨1, 1, 1, 10, 0, .in_attesa, none, none⟩ (by unfold nodupIds; decide)
      (by rfl)).2
  exact (h rfl (by unfold nessuna_altra_attiva; decide) rfl rfl (by decide)).2 rfl

/-- A database whose only commessa (id 1) is 'annullata'. -/
def db_annullata : DB := ⟨[⟨1, 1, 1, 10, 3, .annullata, some 0, some 2⟩], [1], [1]⟩

/-- Counterexample to C8 as stated: `completa_commessa` on the terminal
commessa of `db_annullata` moves it from 'annullata' to 'completata'. -/
theorem completa_su_annullata :
    (get_commessa (completa_commessa db_annullata 7 1).2 1).map (fun x => x.stato)
      = some .completata
    ∧ ¬ ((get_commessa (completa_commessa db_annullata 7 1).2 1).map (fun x => x.stato)
      = some .annullata) := by decide

/-- C8 (amended): a commessa in 'completata' is left in 'completata' by all
five operations (in particular cancelling it is rejected with the database
unchanged), and a commessa in 'annullata' is left unchanged by
`carica_ricetta_commessa`, `avvia_commessa` and `annulla_commessa`;
`completa_commessa` however does move an 'annullata' commessa to
'completata' (see the counterexample). -/
theorem stati_terminali (db : DB) (dev : Device) (flags : StatusFlags)
    (loadOk : Bool) (now commessa_id : Nat) (contatore : Int) (c : Commessa)
    (hc : get_commessa db commessa_id = some c) :
    (c.stato = .completata →
        carica_ricetta_commessa db dev flags loadOk now commessa_id = (false, db, dev)
        ∧ avvia_commessa db now commessa_id = (false, db)
        ∧ annulla_commessa db now commessa_id = (false, db)
        ∧ completa_commessa db now commessa_id = (true, db)
        ∧ (get_commessa (aggiorna_progresso_commessa db now commessa_id contatore).2
            commessa_id).map (fun x => x.stato) = some .completata)
    ∧ (c.stato = .annullata →
        carica_ricetta_commessa db dev flags loadOk now commessa_id = (false, db, dev)
        ∧ avvia_commessa db now commessa_id = (false, db)
        ∧ annulla_commessa db now commessa_id = (false, db)) := by
  constructor
  · intro hs
    refine ⟨?_, ?_, ?_, ?_, ?_⟩
    · unfold carica_ricetta_commessa
      simp only [hc]
      rw [if_pos (show c.stato ≠ .in_attesa by rw [hs]; intro h; cases h)]
    · unfold avvia_commessa
      simp only [hc]
      rw [if_neg (by rw [hs]; rintro (h | h) <;> cases h)]
    · unfold annulla_commessa
      simp only [hc]
      rw [if_pos (Or.inl hs)]
    · unfold completa_commessa
      simp only [hc]
      rw [if_pos hs]
    · exact aggiorna_progresso_stato_completata db now commessa_id contatore c hc hs
  · intro hs
    refine ⟨?_, ?_, ?_⟩
    · unfold carica_ricetta_commessa
      simp only [hc]
      rw [if_pos (show c.stato ≠ .in_attesa by rw [hs]; intro h; cases h)]
    · unfold avvia_commessa
      simp only [hc]
      rw [if_neg (by rw [hs]; rintro (h | h) <;> cases h)]
    · unfold annulla_commessa
      simp only [hc]
      rw [if_pos (Or.inr hs)]

/-- A database whose only commessa (id 1) is 'completata'. -/
def db_completata : DB := ⟨[⟨1, 1, 1, 10, 10, .completata, some 0, some 2⟩], [1], [1]⟩

/-- Witness for the amended C8: on `db_completata`, cancelling is rejected
with the database unchanged and completing is a no-op. -/
theorem stati_terminali_witness :
    annulla_commessa db_completata 9 1 = (false, db_completata)
    ∧ completa_commessa db_completata 9 1 = (true, db_completata) := by
  have h := (stati_terminali db_completata ⟨0⟩ flags_pronta true 9 1 0
      ⟨1, 1, 1, 10, 10, .completata, some 0, some 2⟩ (by rfl)).1 rfl
  exact ⟨h.2.2.1, h.2.2.2.1⟩

-- ===========================================================================
-- C1: the single-active-order invariant
-- ===========================================================================

/-- Number of commesse in an active stato ('ricetta_caricata' or
'in_lavorazione'). -/
def conta_attive (db : DB) : Nat :=
  (db.commesse.filter (fun c => statoAttivo c.stato)).length

/-- Initial database: one cliente and one ricetta, no commesse. -/
def initDB : DB := ⟨[], [1], [1]⟩

/-- States reachable from `initDB` by arbitrary interleavings of the five
order operations, each with arbitrary arguments (for
`carica_ricetta_commessa`, with arbitrary machine flags and device load
outcomes). -/
inductive Reach : DB → Prop where
  | init : Reach initDB
  | crea (db : DB) (cliente_id ricetta_id : Nat) (q : Int) :
      Reach db → Reach (crea_commessa db cliente_id ricetta_id q).2.2
  | carica (db : DB) (dev : Device) (flags : StatusFlags) (loadOk : Bool)
      (now commessa_id : Nat) :
      Reach db → Reach (carica_ricetta_commessa db dev flags loadOk now commessa_id).2.1
  | avvia (db : DB) (now commessa_id : Nat) :
      Reach db → Reach (avvia_commessa db now commessa_id).2
  | annulla (db : DB) (now commessa_id : Nat) :
      Reach db → Reach (annulla_commessa db now commessa_id).2
  | completa (db : DB) (now commessa_id : Nat) :
      Reach db → Reach (completa_commessa db now commessa_id).2

/-- Counterexample to C1 as stated: `avvia_commessa` accepts commesse in
'in_attesa' without checking for another active commessa, so creating two
commesse and starting both yields a reachable state with two commesse
'in_lavorazione'. -/
theorem invariante_attiva_violabile :
    ¬ (∀ db : DB, Reach db → conta_attive db ≤ 1) := by
  intro h
  have h2 := h _ (Reach.avvia _ 0 2 (Reach.avvia _ 0 1
    (Reach.crea _ 1 1 10 (Reach.crea _ 1 1 10 Reach.init))))
  revert h2
  decide

/-- The preserved invariant: distinct ids and at most one active commessa. -/
def invariante (db : DB) : Prop := nodupIds db ∧ conta_attive db ≤ 1

/-- States reachable by interleavings of the five order operations in
which `avvia_commessa` is only invoked on a commessa in stato
'ricetta_caricata' — the only way the monitoring loop
(`CommesseMonitoringTask.monitora_loop`) ever invokes it. -/
inductive GReach (db0 : DB) : DB → Prop where
  | refl : GReach db0 db0
  | crea (db : DB) (cliente_id ricetta_id : Nat) (q : Int) :
      GReach db0 db → GReach db0 (crea_commessa db cliente_id ricetta_id q).2.2
  | carica (db : DB) (dev : Device) (flags : StatusFlags) (loadOk : Bool)
      (now commessa_id : Nat) :
      GReach db0 db →
      GReach db0 (carica_ricetta_commessa db dev flags loadOk now commessa_id).2.1
  | avvia (db : DB) (now commessa_id : Nat) (c : Commessa) :
      GReach db0 db → get_commessa db commessa_id = some c →
      c.stato = .ricetta_caricata →
      GReach db0 (avvia_commessa db now commessa_id).2
  | annulla (db : DB) (now commessa_id : Nat) :
      GReach db0 db → GReach db0 (annulla_commessa db now commessa_id).2
  | completa (db : DB) (now commessa_id : Nat) :
      GReach db0 db → GReach db0 (completa_commessa db now commessa_id).2

lemma length_filter_le_of_imp {α : Type} (p q : α → Bool) {l : List α}
    (h : ∀ a ∈ l, p a = true → q a = true) :
    (l.filter p).length ≤ (l.filter q).length := by
  induction l with
  | nil => exact Nat.le_refl 0
  | cons a t ih =>
    have ht := ih (fun x hx => h x (List.mem_cons_of_mem a hx))
    by_cases hp : p a = true
    · rw [List.filter_cons_of_pos hp,
        List.filter_cons_of_pos (h a (List.mem_cons_self a t) hp)]
      simpa using ht
    · rw [List.filter_cons_of_neg hp]
      by_cases hq : q a = true
      · rw [List.filter_cons_of_pos hq]
        exact Nat.le_trans ht (Nat.le_succ _)
      · rw [List.filter_cons_of_neg hq]
        exact ht

lemma length_filter_id_le_one {l : List Commessa} {i : Nat}
    (h : (l.map (fun c => c.id)).Nodup) :
    (l.filter (fun c => c.id = i)).length ≤ 1 := by
  induction l with
  | nil => exact Nat.zero_le 1
  | cons a t ih =>
    rw [List.map_cons, List.nodup_cons] at h
    by_cases ha : a.id = i
    · rw [List.filter_cons_of_pos (by simpa using ha)]
      have ht : t.filter (fun c => c.id = i) = [] := by
        rw [List.filter_eq_nil_iff]
        intro x hx
        simp only [decide_eq_true_eq]
        intro hxi
        have hmem : x.id ∈ t.map (fun c => c.id) := List.mem_map_of_mem _ hx
        rw [hxi, ← ha] at hmem
        exact h.1 hmem
      rw [ht]
      exact Nat.le_refl 1
    · rw [List.filter_cons_of_neg (by simpa using ha)]
      exact ih h.2

lemma nodupIds_update_stato (db : DB) (i : Nat) (s : Stato) (now : Nat)
    (h : nodupIds db) : nodupIds (update_stato_commessa db i s now) := by
  unfold nodupIds at h ⊢
  unfold update_stato_commessa mapCommesse
  simp only [List.map_map]
  have heq : ((fun c => c.id) ∘ fun c =>
      if c.id = i then imposta_stato_record s now c else c) = (fun c => c.id) := by
    funext c
    by_cases hc : c.id = i <;> simp [hc, imposta_stato_record]
  rw [heq]
  exact h

lemma conta_attive_update_stato_le (db : DB) (i : Nat) (s : Stato) (now : Nat)
    (h : ∀ c ∈ db.commesse, c.id = i → statoAttivo s = true →
      statoAttivo c.stato = true) :
    conta_attive (update_stato_commessa db i s now) ≤ conta_attive db := by
  unfold conta_attive update_stato_commessa mapCommesse
  rw [List.filter_map, List.length_map]
  refine length_filter_le_of_imp _ _ ?_
  intro x hx hax
  have hax1 : statoAttivo (if x.id = i then imposta_stato_record s now x else x).stato
      = true := hax
  by_cases hxi : x.id = i
  · refine h x hx hxi ?_
    simpa [hxi, imposta_stato_record] using hax1
  · simpa [hxi] using hax1

lemma conta_attive_update_stato_of_nessuna (db : DB) (i now : Nat)
    (hnd : nodupIds db) (hno : ∀ x ∈ db.commesse, statoAttivo x.stato = false) :
    conta_attive (update_stato_commessa db i .ricetta_caricata now) ≤ 1 := by
  unfold conta_attive update_stato_commessa mapCommesse
  rw [List.filter_map, List.length_map]
  refine Nat.le_trans (length_filter_le_of_imp _ (fun c => c.id = i) ?_)
    (length_filter_id_le_one hnd)
  intro x hx hax
  have hax1 : statoAttivo (if x.id = i then
      imposta_stato_record .ricetta_caricata now x else x).stato = true := hax
  by_cases hxi : x.id = i
  · simpa using hxi
  · exfalso
    simp only [if_neg hxi] at hax1
    rw [hno x hx] at hax1
    cases hax1

lemma nessuna_of_altra_false (db : DB) (i : Nat) (c : Commessa) (hnd : nodupIds db)
    (hc : get_commessa db i = some c) (hs : c.stato = .in_attesa)
    (h : altra_commessa_attiva db i = false) :
    ∀ x ∈ db.commesse, statoAttivo x.stato = false := by
  intro x hx
  cases hca : get_commessa_attiva db with
  | none =>
    have hca1 : db.commesse.find? (fun y => statoAttivo y.stato) = none := hca
    rw [List.find?_eq_none] at hca1
    have hxf := hca1 x hx
    cases hval : statoAttivo x.stato with
    | false => rfl
    | true => exact absurd hval (by simpa using hxf)
  | some ca =>
    exfalso
    unfold altra_commessa_attiva at h
    rw [hca] at h
    have hid : ca.id = i := by simpa using h
    have hca1 : db.commesse.find? (fun y => statoAttivo y.stato) = some ca := hca
    have h1' := List.find?_some hca1
    have h1 : statoAttivo ca.stato = true := h1'
    have hceq : ca = c := commessa_eq_of_id hnd (List.mem_of_find?_eq_some hca1)
      (List.mem_of_find?_eq_some hc) (hid.trans (get_commessa_id hc).symm)
    rw [hceq, hs] at h1
    cases h1

lemma le_foldr_max {l : List Nat} {x : Nat} (h : x ∈ l) : x ≤ l.foldr max 0 := by
  induction l with
  | nil => cases h
  | cons a t ih =>
    rw [List.foldr_cons]
    rcases List.mem_cons.mp h with h1 | h1
    · rw [h1]; exact le_max_left _ _
    · exact le_trans (ih h1) (le_max_right _ _)

lemma freshId_not_mem (db : DB) : freshId db ∉ db.commesse.map (fun c => c.id) := by
  intro hmem
  have hle := le_foldr_max hmem
  unfold freshId at hle
  omega

lemma invariante_crea (db : DB) (cliente_id ricetta_id : Nat) (q : Int)
    (h : invariante db) : invariante (crea_commessa db cliente_id ricetta_id q).2.2 := by
  obtain ⟨hnd, hcount⟩ := h
  unfold crea_commessa
  by_cases hv : valida_commessa db cliente_id ricetta_id q = true
  · rw [if_pos hv]
    constructor
    · unfold nodupIds at hnd ⊢
      simp only [List.map_append]
      rw [List.nodup_append]
      exact ⟨hnd, List.nodup_singleton _,
        by simpa [List.disjoint_singleton] using freshId_not_mem db⟩
    · unfold conta_attive at hcount ⊢
      simp only [List.filter_append]
      have hone : List.filter (fun c => statoAttivo c.stato)
          [(⟨freshId db, cliente_id, ricetta_id, q, 0, .in_attesa, none, none⟩ : Commessa)]
          = [] := rfl
      rw [hone, List.append_nil]
      exact hcount
  · rw [if_neg hv]
    exact ⟨hnd, hcount⟩

lemma invariante_avvia_guardata (db : DB) (now i : Nat) (c : Commessa)
    (hc : get_commessa db i = some c) (hs : c.stato = .ricetta_caricata)
    (h : invariante db) : invariante (avvia_commessa db now i).2 := by
  obtain ⟨hnd, hcount⟩ := h
  have heq : avvia_commessa db now i
      = (true, update_stato_commessa db i .in_lavorazione now) := by
    unfold avvia_commessa
    simp only [hc]
    rw [if_pos (Or.inl hs)]
  rw [heq]
  refine ⟨nodupIds_update_stato db i _ now hnd, Nat.le_trans
    (conta_attive_update_stato_le db i _ now ?_) hcount⟩
  intro x hx hxi _
  have hxc : x = c := commessa_eq_of_id hnd hx (List.mem_of_find?_eq_some hc)
    (hxi.trans (get_commessa_id hc).symm)
  rw [hxc, hs]
  rfl

lemma invariante_annulla (db : DB) (now i : Nat) (h : invariante db) :
    invariante (annulla_commessa db now i).2 := by
  obtain ⟨hnd, hcount⟩ := h
  cases hc : get_commessa db i with
  | none =>
    have heq : annulla_commessa db now i = (false, db) := by
      unfold annulla_commessa
      simp only [hc]
    rw [heq]
    exact ⟨hnd, hcount⟩
  | some c =>
    by_cases hsc : c.stato = .completata ∨ c.stato = .annullata
    · have heq : annulla_commessa db now i = (false, db) := by
        unfold annulla_commessa
        simp only [hc]
        rw [if_pos hsc]
      rw [heq]
      exact ⟨hnd, hcount⟩
    · have heq : annulla_commessa db now i
          = (true, update_stato_commessa db i .annullata now) := by
        unfold annulla_commessa
        simp only [hc]
        rw [if_neg hsc]
      rw [heq]
      refine ⟨nodupIds_update_stato db i _ now hnd, Nat.le_trans
        (conta_attive_update_stato_le db i _ now ?_) hcount⟩
      intro x _ _ habs
      cases habs

lemma invariante_completa (db : DB) (now i : Nat) (h : invariante db) :
    invariante (completa_commessa db now i).2 := by
  obtain ⟨hnd, hcount⟩ := h
  cases hc : get_commessa db i with
  | none =>
    have heq : completa_commessa db now i = (false, db) := by
      unfold completa_commessa
      simp only [hc]
    rw [heq]
    exact ⟨hnd, hcount⟩
  | some c =>
    by_cases hsc : c.stato = .completata
    · have heq : completa_commessa db now i = (true, db) := by
        unfold completa_commessa
        simp only [hc]
        rw [if_pos hsc]
      rw [heq]
      exact ⟨hnd, hcount⟩
    · have heq : completa_commessa db now i
          = (true, update_stato_commessa db i .completata now) := by
        unfold completa_commessa
        simp only [hc]
        rw [if_neg hsc]
      rw [heq]
      refine ⟨nodupIds_update_stato db i _ now hnd, Nat.le_trans
        (conta_attive_update_stato_le db i _ now ?_) hcount⟩
      intro x _ _ habs
      cases habs

lemma invariante_carica (db : DB) (dev : Device) (flags : StatusFlags)
    (loadOk : Bool) (now i : Nat) (h : invariante db) :
    invariante (carica_ricetta_commessa db dev flags loadOk now i).2.1 := by
  obtain ⟨hnd, hcount⟩ := h
  cases hc : get_commessa db i with
  | none =>
    have heq : carica_ricetta_commessa db dev flags loadOk now i = (false, db, dev) := by
      unfold carica_ricetta_commessa
      simp only [hc]
    rw [heq]
    exact ⟨hnd, hcount⟩
  | some c =>
    by_cases h1 : c.stato ≠ .in_attesa
    · have heq : carica_ricetta_commessa db dev flags loadOk now i = (false, db, dev) := by
        unfold carica_ricetta_commessa
        simp only [hc]
        rw [if_pos h1]
      rw [heq]
      exact ⟨hnd, hcount⟩
    · by_cases h2 : altra_commessa_attiva db i = true
      · have heq : carica_ricetta_commessa db dev flags loadOk now i = (false, db, dev) := by
          unfold carica_ricetta_commessa
          simp only [hc]
          rw [if_neg h1, if_pos h2]
        rw [heq]
        exact ⟨hnd, hcount⟩
      · by_cases h3 : c.ricetta_id ∉ db.ricette
        · have heq : carica_ricetta_commessa db dev flags loadOk now i
              = (false, db, dev) := by
            unfold carica_ricetta_commessa
            simp only [hc]
            rw [if_neg h1, if_neg h2, if_pos h3]
          rw [heq]
          exact ⟨hnd, hcount⟩
        · by_cases h4 : (!verifica_macchina_pronta flags) = true
          · have heq : carica_ricetta_commessa db dev flags loadOk now i
                = (false, db, dev) := by
              unfold carica_ricetta_commessa
              simp only [hc]
              rw [if_neg h1, if_neg h2, if_neg h3, if_pos h4]
            rw [heq]
            exact ⟨hnd, hcount⟩
          · by_cases h5 : (!loadOk) = true
            · have heq : carica_ricetta_commessa db dev flags loadOk now i
                  = (false, update_stato_commessa db i .errore now, dev) := by
                unfold carica_ricetta_commessa
                simp only [hc]
                rw [if_neg h1, if_neg h2, if_neg h3, if_neg h4, if_pos h5]
              rw [heq]
              refine ⟨nodupIds_update_stato db i _ now hnd, Nat.le_trans
                (conta_attive_update_stato_le db i _ now ?_) hcount⟩
              intro x _ _ habs
              cases habs
            · have heq : carica_ricetta_commessa db dev flags loadOk now i
                  = (true, update_stato_commessa db i .ricetta_caricata now,
                     { dev with contatore_lotto := c.quantita_richiesta }) := by
                unfold carica_ricetta_commessa
                simp only [hc]
                rw [if_neg h1, if_neg h2, if_neg h3, if_neg h4, if_neg h5]
              rw [heq]
              have hs : c.stato = .in_attesa := not_not.mp h1
              have hfalse : altra_commessa_attiva db i = false := by
                cases hb : altra_commessa_attiva db i with
                | false => rfl
                | true => exact absurd hb h2
              exact ⟨nodupIds_update_stato db i _ now hnd,
                conta_attive_update_stato_of_nessuna db i now hnd
                  (nessuna_of_altra_false db i c hnd hc hs hfalse)⟩

/-- C1 (amended): from any database satisfying the invariant (distinct ids
and at most one active commessa), every interleaving of the five order
operations in which `avvia_commessa` is only applied to a commessa already
in 'ricetta_caricata' (the only call the monitoring loop performs)
preserves the invariant: at most one commessa is 'ricetta_caricata' or
'in_lavorazione' at every reachable point.  The unrestricted
`avvia_commessa`, which also accepts 'in_attesa' without any
single-active check, violates the claim (see the counterexample). -/
theorem greach_conserva_invariante (db0 db : DB) (h0 : invariante db0)
    (h : GReach db0 db) : invariante db := by
  induction h with
  | refl => exact h0
  | crea db cid rid q _ ih => exact invariante_crea db cid rid q ih
  | carica db dev flags loadOk now i _ ih =>
    exact invariante_carica db dev flags loadOk now i ih
  | avvia db now i c _ hc hs ih => exact invariante_avvia_guardata db now i c hc hs ih
  | annulla db now i _ ih => exact invariante_annulla db now i ih
  | completa db now i _ ih => exact invariante_completa db now i ih

/-- Witness for the amended C1: from `initDB` (which satisfies the
invariant) a creation step keeps the invariant. -/
theorem greach_conserva_invariante_witness :
    invariante (crea_commessa initDB 1 1 10).2.2 :=
  greach_conserva_invariante initDB (crea_commessa initDB 1 1 10).2.2
    ⟨by unfold nodupIds; decide, by decide⟩
    (GReach.crea initDB 1 1 10 GReach.refl)

-- ===========================================================================
-- C5 and C6: alarm tracker
-- ===========================================================================

lemma lookupA_filter_ne {c d : Int} (l : List (Int × Nat)) (h : c ≠ d) :
    lookupA c (l.filter (fun p => p.1 ≠ d)) = lookupA c l := by
  induction l with
  | nil => rfl
  | cons a t ih =>
    by_cases ha : a.1 = d
    · rw [List.filter_cons_of_neg (by simp [ha])]
      rw [ih]
      have : ¬ (a.1 = c) := by rw [ha]; exact fun hh => h hh.symm
      simp only [lookupA, if_neg this]
    · rw [List.filter_cons_of_pos (by simp [ha])]
      by_cases hac : a.1 = c
      · simp only [lookupA, if_pos hac]
      · simp only [lookupA, if_neg hac, ih]

lemma lookupA_filter_self (d : Int) (l : List (Int × Nat)) :
    lookupA d (l.filter (fun p => p.1 ≠ d)) = none := by
  induction l with
  | nil => rfl
  | cons a t ih =>
    by_cases ha : a.1 = d
    · rw [List.filter_cons_of_neg (by simp [ha])]; exact ih
    · rw [List.filter_cons_of_pos (by simp [ha])]
      simp only [lookupA, if_neg ha, ih]

lemma filter_ne_of_lookupA_none {d : Int} {l : List (Int × Nat)}
    (h : lookupA d l = none) : l.filter (fun p => p.1 ≠ d) = l := by
  induction l with
  | nil => rfl
  | cons a t ih =>
    by_cases ha : a.1 = d
    · simp only [lookupA, if_pos ha] at h
      cases h
    · simp only [lookupA, if_neg ha] at h
      rw [List.filter_cons_of_pos (by simp [ha]), ih h]

lemma end_allarme_attivi (tr : TrackerState) (codice : Int) (now : Nat) :
    (end_allarme tr codice now).allarmi_attivi
      = tr.allarmi_attivi.filter (fun p => p.1 ≠ codice) := by
  unfold end_allarme
  cases h : lookupA codice tr.allarmi_attivi with
  | none => simp only []; rw [filter_ne_of_lookupA_none h]
  | some t0 => simp only []

lemma lookupA_end_allarme (tr : TrackerState) (c d : Int) (now : Nat) :
    lookupA c (end_allarme tr d now).allarmi_attivi
      = if c = d then none else lookupA c tr.allarmi_attivi := by
  rw [end_allarme_attivi]
  by_cases h : c = d
  · rw [if_pos h, h, lookupA_filter_self]
  · rw [if_neg h, lookupA_filter_ne _ h]

lemma foldl_end_lookup (now : Nat) (c : Int) (cs : List Int) (tr : TrackerState) :
    lookupA c ((cs.foldl (fun t x => end_allarme t x now) tr)).allarmi_attivi
      = if c ∈ cs then none else lookupA c tr.allarmi_attivi := by
  induction cs generalizing tr with
  | nil => simp
  | cons c0 cs ih =>
    rw [List.foldl_cons, ih]
    by_cases hmem : c ∈ cs
    · simp [hmem]
    · rw [if_neg hmem, lookupA_end_allarme]
      by_cases hc0 : c = c0
      · simp [hc0]
      · simp [hc0, hmem]

lemma lookupA_isSome_iff (c : Int) (l : List (Int × Nat)) :
    (lookupA c l).isSome = true ↔ c ∈ l.map Prod.fst := by
  induction l with
  | nil => simp [lookupA]
  | cons a t ih =>
    by_cases ha : a.1 = c
    · simp [lookupA, ha]
    · simp only [lookupA, if_neg ha, List.map_cons, List.mem_cons, ih]
      constructor
      · exact fun h => Or.inr h
      · rintro (h | h)
        · exact absurd h.symm ha
        · exact h

lemma lookupA_start (tr : TrackerState) (a c : Int) (now : Nat) :
    lookupA c (start_allarme tr a now).allarmi_attivi
      = if a = c then some now else lookupA c tr.allarmi_attivi := rfl

lemma apri_nuovi_lookup (now : Nat) (c : Int) (s : List Int) (tr : TrackerState) :
    lookupA c (apri_nuovi tr s now).allarmi_attivi
      = if c ∈ s then some ((lookupA c tr.allarmi_attivi).getD now)
        else lookupA c tr.allarmi_attivi := by
  induction s generalizing tr with
  | nil => simp [apri_nuovi]
  | cons a s ih =>
    have step : apri_nuovi tr (a :: s) now
        = apri_nuovi
            (if lookupA a tr.allarmi_attivi = none then start_allarme tr a now else tr)
            s now := by
      unfold apri_nuovi
      rw [List.foldl_cons]
    have hlook : lookupA c
        (if lookupA a tr.allarmi_attivi = none then start_allarme tr a now
         else tr).allarmi_attivi
        = if a = c then some ((lookupA a tr.allarmi_attivi).getD now)
          else lookupA c tr.allarmi_attivi := by
      by_cases hnone : lookupA a tr.allarmi_attivi = none
      · rw [if_pos hnone, lookupA_start]
        by_cases hac : a = c
        · rw [if_pos hac, if_pos hac, hnone]
          rfl
        · rw [if_neg hac, if_neg hac]
      · rw [if_neg hnone]
        by_cases hac : a = c
        · rw [if_pos hac]
          cases hsome : lookupA a tr.allarmi_attivi with
          | none => exact absurd hsome hnone
          | some t0 =>
            rw [← hac, hsome]
            rfl
        · rw [if_neg hac]
    rw [step, ih, hlook]
    by_cases hac : a = c
    · subst hac
      by_cases hs : a ∈ s <;> simp [hs]
    · have hca : ¬ (c = a) := fun hh => hac hh.symm
      by_cases hs : c ∈ s <;> simp [hs, hac, List.mem_cons, hca]

lemma apri_nuovi_storico (tr : TrackerState) (s : List Int) (now : Nat) :
    (apri_nuovi tr s now).storico = tr.storico := by
  induction s generalizing tr with
  | nil => rfl
  | cons a s ih =>
    unfold apri_nuovi
    rw [List.foldl_cons]
    by_cases hnone : lookupA a tr.allarmi_attivi = none
    · rw [if_pos hnone]; exact ih (start_allarme tr a now)
    · rw [if_neg hnone]; exact ih tr

lemma apri_nuovi_nodup (tr : TrackerState) (s : List Int) (now : Nat)
    (h : (tr.allarmi_attivi.map Prod.fst).Nodup) :
    ((apri_nuovi tr s now).allarmi_attivi.map Prod.fst).Nodup := by
  induction s generalizing tr with
  | nil => exact h
  | cons a s ih =>
    unfold apri_nuovi
    rw [List.foldl_cons]
    by_cases hnone : lookupA a tr.allarmi_attivi = none
    · rw [if_pos hnone]
      refine ih _ ?_
      simp only [start_allarme, List.map_cons]
      refine List.Nodup.cons ?_ h
      intro hmem
      rw [← lookupA_isSome_iff] at hmem
      rw [hnone] at hmem
      cases hmem
    · rw [if_neg hnone]; exact ih tr h

lemma apri_nuovi_keys_filter (now : Nat) (s0 : List Int) :
    ∀ (s : List Int) (tr : TrackerState), (∀ a ∈ s, a ∈ s0) →
    ((apri_nuovi tr s now).allarmi_attivi.map Prod.fst).filter (fun c => c ∉ s0)
      = (tr.allarmi_attivi.map Prod.fst).filter (fun c => c ∉ s0) := by
  intro s
  induction s with
  | nil => intro tr _; rfl
  | cons a s ih =>
    intro tr hsub
    unfold apri_nuovi
    rw [List.foldl_cons]
    by_cases hnone : lookupA a tr.allarmi_attivi = none
    · rw [if_pos hnone]
      have h2 := ih (start_allarme tr a now) (fun x hx => hsub x (List.mem_cons_of_mem a hx))
      unfold apri_nuovi at h2
      rw [h2]
      simp only [start_allarme, List.map_cons]
      rw [List.filter_cons_of_neg (by simp [hsub a (List.mem_cons_self a s)])]
    · rw [if_neg hnone]
      exact ih tr (fun x hx => hsub x (List.mem_cons_of_mem a hx))

lemma filterMap_congr_mem {α β : Type} {f g : α → Option β} :
    ∀ {l : List α}, (∀ a ∈ l, f a = g a) → l.filterMap f = l.filterMap g := by
  intro l
  induction l with
  | nil => intro _; rfl
  | cons a t ih =>
    intro h
    rw [List.filterMap_cons, List.filterMap_cons, h a (List.mem_cons_self a t),
      ih (fun x hx => h x (List.mem_cons_of_mem a hx))]

lemma foldl_end_storico (now : Nat) :
    ∀ (cs : List Int) (tr : TrackerState), cs.Nodup →
    (cs.foldl (fun t x => end_allarme t x now) tr).storico
      = tr.storico ++ cs.filterMap
          (fun c => (lookupA c tr.allarmi_attivi).map (fun t0 => chiudi_allarme c t0 now)) := by
  intro cs
  induction cs with
  | nil => intro tr _; simp
  | cons c0 cs ih =>
    intro tr hnd
    rw [List.foldl_cons]
    have hnotc0 : c0 ∉ cs := (List.nodup_cons.mp hnd).1
    have hndcs : cs.Nodup := (List.nodup_cons.mp hnd).2
    cases hl : lookupA c0 tr.allarmi_attivi with
    | none =>
      have hend : end_allarme tr c0 now = tr := by
        unfold end_allarme; rw [hl]
      rw [hend, ih tr hndcs, List.filterMap_cons, hl]
      rfl
    | some t0 =>
      have hend : end_allarme tr c0 now
          = ⟨tr.allarmi_attivi.filter (fun p => p.1 ≠ c0),
             tr.storico ++ [chiudi_allarme c0 t0 now]⟩ := by
        unfold end_allarme; rw [hl]
      rw [hend, ih _ hndcs]
      simp only []
      have hcong : cs.filterMap
          (fun c => (lookupA c (tr.allarmi_attivi.filter (fun p => p.1 ≠ c0))).map
            (fun t1 => chiudi_allarme c t1 now))
          = cs.filterMap
              (fun c => (lookupA c tr.allarmi_attivi).map (fun t1 => chiudi_allarme c t1 now)) := by
        apply filterMap_congr_mem
        intro a ha
        have hne : a ≠ c0 := fun he => hnotc0 (he ▸ ha)
        rw [lookupA_filter_ne _ hne]
      rw [hcong, List.filterMap_cons, hl]
      simp only [Option.map_some']
      rw [List.append_assoc]
      rfl

lemma keys_filter_filterMap (now : Nat) (p : Int → Prop) [DecidablePred p] :
    ∀ (l : List (Int × Nat)), (l.map Prod.fst).Nodup →
    ((l.map Prod.fst).filter (fun c => p c)).filterMap
        (fun c => (lookupA c l).map (fun t0 => chiudi_allarme c t0 now))
      = (l.filter (fun q => p q.1)).map (fun q => chiudi_allarme q.1 q.2 now) := by
  intro l
  induction l with
  | nil => intro _; rfl
  | cons kv rest ih =>
    intro hnd
    rw [List.map_cons] at hnd ⊢
    have hknot : kv.1 ∉ rest.map Prod.fst := (List.nodup_cons.mp hnd).1
    have hndr : (rest.map Prod.fst).Nodup := (List.nodup_cons.mp hnd).2
    have hcong : ((rest.map Prod.fst).filter (fun c => p c)).filterMap
        (fun c => (lookupA c (kv :: rest)).map (fun t0 => chiudi_allarme c t0 now))
        = ((rest.map Prod.fst).filter (fun c => p c)).filterMap
            (fun c => (lookupA c rest).map (fun t0 => chiudi_allarme c t0 now)) := by
      apply filterMap_congr_mem
      intro a ha
      have hamem : a ∈ rest.map Prod.fst := (List.mem_filter.mp ha).1
      have hne : ¬ (kv.1 = a) := fun he => hknot (he ▸ hamem)
      simp only [lookupA, if_neg hne]
    by_cases hp : p kv.1
    · rw [List.filter_cons_of_pos (by simp [hp]),
        List.filter_cons_of_pos (by simp [hp]),
        List.filterMap_cons]
      have hhead : lookupA kv.1 (kv :: rest) = some kv.2 := by simp [lookupA]
      simp only [hhead, Option.map_some']
      rw [hcong, ih hndr, List.map_cons]
    · rw [List.filter_cons_of_neg (by simp [hp]),
        List.filter_cons_of_neg (by simp [hp])]
      rw [hcong, ih hndr]

/-- Lookup characterization of one alarm-processing step: after the step a
code is open iff it is in the snapshot set, keeping its old open timestamp
when it was already open and getting `now` when newly opened. -/
lemma process_machine_state_lookup (tr : TrackerState) (slots : List Int)
    (now : Nat) (c : Int) :
    lookupA c (process_machine_state tr slots now).allarmi_attivi
      = if c ∈ allarmi_attuali slots
        then some ((lookupA c tr.allarmi_attivi).getD now)
        else none := by
  unfold process_machine_state chiudi_risolti
  rw [foldl_end_lookup]
  by_cases hs : c ∈ allarmi_attuali slots
  · rw [if_pos hs]
    have hno : c ∉ ((apri_nuovi tr (allarmi_attuali slots) now).allarmi_attivi.map
        Prod.fst).filter (fun x => x ∉ allarmi_attuali slots) := by
      intro hmem
      exact (of_decide_eq_true (List.mem_filter.mp hmem).2) hs
    rw [if_neg hno, apri_nuovi_lookup, if_pos hs]
  · rw [if_neg hs]
    by_cases hk : c ∈ (apri_nuovi tr (allarmi_attuali slots) now).allarmi_attivi.map Prod.fst
    · rw [if_pos (List.mem_filter.mpr ⟨hk, by simp [hs]⟩)]
    · rw [if_neg (fun hmem => hk (List.mem_filter.mp hmem).1)]
      cases hlook : lookupA c (apri_nuovi tr (allarmi_attuali slots) now).allarmi_attivi with
      | none => rfl
      | some t0 =>
        exact absurd ((lookupA_isSome_iff c _).mp (by rw [hlook]; rfl)) hk

/-- C5: on every tick, given the snapshot's alarm-code set S and the open
set O, the tracker opens (at `now`) exactly the codes in S \ O, leaves the
codes in S ∩ O with their old open timestamps, and closes (with
`timestamp_fine = now` and `durata_secondi = now - timestamp_inizio`)
exactly the intervals of the codes in O \ S, which move to the closed
history. -/
theorem process_machine_state_spec (tr : TrackerState) (slots : List Int)
    (now : Nat) (hnd : (tr.allarmi_attivi.map Prod.fst).Nodup) :
    (∀ c, lookupA c (process_machine_state tr slots now).allarmi_attivi
        = if c ∈ allarmi_attuali slots
          then some ((lookupA c tr.allarmi_attivi).getD now)
          else none)
    ∧ (process_machine_state tr slots now).storico
        = tr.storico
          ++ (tr.allarmi_attivi.filter (fun p => p.1 ∉ allarmi_attuali slots)).map
              (fun p => chiudi_allarme p.1 p.2 now) := by
  refine ⟨fun c => process_machine_state_lookup tr slots now c, ?_⟩
  unfold process_machine_state chiudi_risolti
  have hnd1 := apri_nuovi_nodup tr (allarmi_attuali slots) now hnd
  have hrisolti : ((apri_nuovi tr (allarmi_attuali slots) now).allarmi_attivi.map
      Prod.fst).filter (fun c => c ∉ allarmi_attuali slots)
      = (tr.allarmi_attivi.map Prod.fst).filter (fun c => c ∉ allarmi_attuali slots) :=
    apri_nuovi_keys_filter now (allarmi_attuali slots) (allarmi_attuali slots) tr
      (fun a ha => ha)
  rw [foldl_end_storico now _ _ (by rw [hrisolti]; exact hnd.filter _),
    apri_nuovi_storico, hrisolti]
  have hcong : ((tr.allarmi_attivi.map Prod.fst).filter
      (fun c => c ∉ allarmi_attuali slots)).filterMap
        (fun c => (lookupA c (apri_nuovi tr (allarmi_attuali slots) now).allarmi_attivi).map
          (fun t0 => chiudi_allarme c t0 now))
      = ((tr.allarmi_attivi.map Prod.fst).filter
          (fun c => c ∉ allarmi_attuali slots)).filterMap
            (fun c => (lookupA c tr.allarmi_attivi).map
              (fun t0 => chiudi_allarme c t0 now)) := by
    apply filterMap_congr_mem
    intro a ha
    have hnotin : a ∉ allarmi_attuali slots :=
      of_decide_eq_true (List.mem_filter.mp ha).2
    rw [apri_nuovi_lookup, if_neg hnotin]
  rw [hcong, keys_filter_filterMap now (fun c => c ∉ allarmi_attuali slots)
    tr.allarmi_attivi hnd]

/-- Witness for C5: open alarms 10 (since 2) and 7 (since 1); the snapshot
shows codes 10 and 3 (and an empty slot).  At time 5: code 3 is newly
opened at 5, code 10 keeps its open time 2, and code 7 is closed with
duration 5 - 1 = 4. -/
theorem process_machine_state_spec_witness :
    lookupA 3 (process_machine_state ⟨[(10, 2), (7, 1)], []⟩ [10, 3, 0] 5).allarmi_attivi
      = some 5
    ∧ lookupA 10 (process_machine_state ⟨[(10, 2), (7, 1)], []⟩ [10, 3, 0] 5).allarmi_attivi
      = some 2
    ∧ lookupA 7 (process_machine_state ⟨[(10, 2), (7, 1)], []⟩ [10, 3, 0] 5).allarmi_attivi
      = none
    ∧ (process_machine_state ⟨[(10, 2), (7, 1)], []⟩ [10, 3, 0] 5).storico
      = [⟨7, 1, some 5, some 4⟩] := by
  obtain ⟨h1, h2⟩ :=
    process_machine_state_spec ⟨[(10, 2), (7, 1)], []⟩ [10, 3, 0] 5 (by decide)
  exact ⟨(h1 3).trans (by decide), (h1 10).trans (by decide),
    (h1 7).trans (by decide), h2.trans (by decide)⟩

lemma apri_nuovi_noop (now : Nat) :
    ∀ (s : List Int) (tr : TrackerState),
    (∀ c ∈ s, lookupA c tr.allarmi_attivi ≠ none) → apri_nuovi tr s now = tr := by
  intro s
  induction s with
  | nil => intro tr _; rfl
  | cons a s ih =>
    intro tr h
    unfold apri_nuovi
    rw [List.foldl_cons, if_neg (h a (List.mem_cons_self a s))]
    exact ih tr (fun c hc => h c (List.mem_cons_of_mem a hc))

/-- C6: re-processing the same snapshot is idempotent: the second
application changes neither the open-alarm map nor the closed history (no
alarm is double-opened or double-closed), regardless of the timestamps of
the two calls. -/
theorem process_machine_state_idempotente (tr : TrackerState) (slots : List Int)
    (now1 now2 : Nat) :
    process_machine_state (process_machine_state tr slots now1) slots now2
      = process_machine_state tr slots now1 := by
  set res := process_machine_state tr slots now1 with hres
  have hopen : ∀ c ∈ allarmi_attuali slots, lookupA c res.allarmi_attivi ≠ none := by
    intro c hc
    rw [hres, process_machine_state_lookup, if_pos hc]
    exact fun h => Option.noConfusion h
  have hkeys : ∀ k ∈ res.allarmi_attivi.map Prod.fst, k ∈ allarmi_attuali slots := by
    intro k hk
    by_contra hnot
    have := (lookupA_isSome_iff k res.allarmi_attivi).mpr hk
    rw [hres, process_machine_state_lookup, if_neg hnot] at this
    cases this
  show chiudi_risolti (apri_nuovi res (allarmi_attuali slots) now2)
      (allarmi_attuali slots) now2 = res
  rw [apri_nuovi_noop now2 _ res hopen]
  unfold chiudi_risolti
  have hnil : (res.allarmi_attivi.map Prod.fst).filter
      (fun c => c ∉ allarmi_attuali slots) = [] := by
    rw [List.filter_eq_nil_iff]
    intro a ha
    simp only [decide_not, Bool.not_eq_true', decide_eq_false_iff_not, not_not]
    exact hkeys a ha
  rw [hnil]
  rfl
